import Mathlib

/-!
Verification of the HuRIC-to-CoNLL converter (`sesame/huric_to_conll.py`).

The converter reads per-sentence XML annotation files and emits CoNLL-2009
rows: one row per token per frame.  We shallowly embed the per-document data
model (tokens, dependency edges, frames, frame elements) and the pure parts of
the conversion: the three name-remapping tables, the part-of-speech category
rule, the IOB span labelling, the row construction, and the writer's file
contents.  Fallible Python operations (dict key lookup, the raised exception
for an unmapped POS tag) are embedded with `Except`.
-/

/-- A token of the sentence: the `id`, `surface`, `lemma`, `pos` XML
attributes (all strings). -/
structure Token where
  id : String
  surface : String
  lemma' : String
  pos : String
deriving DecidableEq, Repr

/-- A dependency edge: the `to`, `from`, `type` XML attributes.  The Python
keeps the whole attribute dict; the row construction reads only these three.
`to` and `from` are Lean keywords, hence `to'` and `from'`. -/
structure Dep where
  to' : String
  from' : String
  type : String
deriving DecidableEq, Repr

/-- A frame element: its `type` attribute (the role name) and the ids of its
`token` children, in annotation order. -/
structure FrameElement where
  type : String
  tokens : List String
deriving DecidableEq, Repr

/-- A frame: its `name` attribute, the lexical-unit token ids
(`lexicalUnit/token`), and its frame elements. -/
structure Frame where
  name : String
  lus : List String
  frameElements : List FrameElement
deriving DecidableEq, Repr

/-- The two error conditions the conversion can raise: a Python `KeyError`
when a token id has no entry in the dependency map, and the explicit
`Exception("Rule not defined for part-of-speech word", pos)`. -/
inductive ConvError where
  | keyError (tid : String)
  | posRuleError (msg : String) (pos : String)
deriving DecidableEq, Repr

/-- First-match lookup in a literal association table (the tables all have
distinct keys, so this coincides with the Python dict). -/
def table_lookup : List (String × String) → String → Option String
  | [], _ => none
  | (k, v) :: rest, key => if key = k then some v else table_lookup rest key

/-- The table of `get_fn_frame_name`. -/
def frame_name_mapping : List (String × String) :=
  [("Entering", "Arriving"), ("Following", "Cotheme"), ("Searching", "Scrutiny")]

/-- `get_fn_frame_name`: map back from HuRIC to FrameNet frame names; a name
not in the table is returned unchanged. -/
def get_fn_frame_name (huric_name : String) : String :=
  match table_lookup frame_name_mapping huric_name with
  | some v => v
  | none => huric_name

/-- The table of `get_lu_lemma`. -/
def lu_lemma_mapping : List (String × String) :=
  [("halfcarri", "carry"), ("positioning", "position"),
   ("reconnoiter", "reconnoitre"), ("half-l", "lead"),
   ("be", "constitute"), ("there", "constitute"),
   ("along", "go"), ("let", "go"), ("up", "pick")]

/-- `get_lu_lemma`: lemma correction table; a lemma not in the table is
returned unchanged. -/
def get_lu_lemma (lemma₀ : String) : String :=
  match table_lookup lu_lemma_mapping lemma₀ with
  | some v => v
  | none => lemma₀

/-- The table of `get_fe_framenet`. -/
def fe_mapping : List (String × String) :=
  [("Desired_state", "Desired_state_of_affairs"), ("Reencoding", "Re-encoding")]

/-- `get_fe_framenet`: frame-element renaming table; a role name not in the
table is returned unchanged. -/
def get_fe_framenet (fe : String) : String :=
  match table_lookup fe_mapping fe with
  | some v => v
  | none => fe

/-- `get_fn_pos_by_rules`: rules for mapping HuRIC part-of-speech tags into
FrameNet POS categories.  `JJ` is an adjective, the three `NN*` tags are
nouns, the six `VB*` tags together with `RP` and `EX` are verb-like; any
other tag raises `Exception("Rule not defined for part-of-speech word", pos)`. -/
def get_fn_pos_by_rules (pos : String) : Except ConvError String :=
  if pos = "JJ" then Except.ok "a"
  else if pos ∈ ["NN", "NNP", "NNS"] then Except.ok "n"
  else if pos ∈ ["VB", "VBD", "VBG", "VBN", "VBP", "VBZ", "RP", "EX"] then Except.ok "v"
  else Except.error (ConvError.posRuleError "Rule not defined for part-of-speech word" pos)

/-- The tags on which `get_fn_pos_by_rules` succeeds. -/
def recognized_pos_tags : List String :=
  ["JJ", "NN", "NNP", "NNS", "VB", "VBD", "VBG", "VBN", "VBP", "VBZ", "RP", "EX"]

/-- Python's `enumerate`, starting at `n`. -/
def enumerateFrom (n : Nat) : List α → List (Nat × α)
  | [] => []
  | x :: xs => (n, x) :: enumerateFrom (n + 1) xs

/-- The IOB label built in the frame-element loop: `B` for the first token of
a span, `I` for the following ones, overridden to `S` when the span has
exactly one token; then hyphen and the (already remapped) role name. -/
def iob_label (len count : Nat) (fe_name : String) : String :=
  (if len = 1 then "S" else if count = 0 then "B" else "I") ++ "-" ++ fe_name

/-- The `(token id, IOB label)` assignments performed for one `frameElement`:
one per covered token, in annotation order, with the role name remapped by
`get_fe_framenet`. -/
def elem_assignments (fe : FrameElement) : List (String × String) :=
  (enumerateFrom 0 fe.tokens).map
    (fun p => (p.2, iob_label fe.tokens.length p.1 (get_fe_framenet fe.type)))

/-- All assignments into `fe_by_t_id`, over the frame elements in document
order (a later assignment to the same id overwrites an earlier one, as in the
Python dict). -/
def all_assignments : List FrameElement → List (String × String)
  | [] => []
  | fe :: rest => elem_assignments fe ++ all_assignments rest

/-- One dict-assignment step: a matching later entry overwrites the
accumulated value. -/
def pick (tid : String) (acc : String) (p : String × String) : String :=
  if p.1 = tid then p.2 else acc

/-- `fe_by_t_id`: the IOB label of token `tid` for the given frame elements —
the last assignment wins; a token never assigned keeps the `defaultdict`
value `"O"`. -/
def fe_by_t_id (fes : List FrameElement) (tid : String) : String :=
  (all_assignments fes).foldl (pick tid) "O"

/-- `deps_by_t_id`: the dependency map keyed by the destination (`to`) token
id, as built by the dict comprehension (a later edge with the same `to`
overwrites an earlier one); `none` models the `KeyError` case. -/
def deps_by_t_id (deps : List Dep) (tid : String) : Option Dep :=
  deps.foldl (fun acc d => if d.to' = tid then some d else acc) none

/-- One CoNLL-2009 row for token `t`, for the frame with name `frame_name`,
lexical-unit ids `lus` and frame elements `fes`, inside the document
`command_id`.  Mirrors the 15-element list of the comprehension; the
dependency lookup is evaluated before FILLPRED (Python evaluates the list
elements in order), so a missing edge raises `KeyError` first, and FILLPRED
calls `get_fn_pos_by_rules` only when the token id is a lexical unit. -/
def conll_row (command_id : String) (deps : List Dep) (frame_name : String)
    (lus : List String) (fes : List FrameElement) (t : Token) :
    Except ConvError (List String) :=
  match deps_by_t_id deps t.id with
  | none => Except.error (ConvError.keyError t.id)
  | some d =>
    match (if t.id ∈ lus then
            match get_fn_pos_by_rules t.pos with
            | Except.ok pc =>
                Except.ok (get_lu_lemma t.lemma' ++ "." ++ pc, get_fn_frame_name frame_name)
            | Except.error e => Except.error e
          else
            Except.ok ("_", "_")) with
    | Except.error e => Except.error e
    | Except.ok fp =>
        Except.ok [t.id, t.surface, t.lemma', t.lemma', t.pos, t.pos, command_id, "_",
                   d.from', d.from', d.type, d.type, fp.1, fp.2, fe_by_t_id fes t.id]

/-- Left-to-right effectful map over `Except`, stopping at the first error
(the Python comprehension evaluates the rows in order and propagates the
first raised exception). -/
def mapExcept (f : α → Except ε β) : List α → Except ε (List β)
  | [] => Except.ok []
  | x :: xs =>
    match f x with
    | Except.error e => Except.error e
    | Except.ok y =>
      match mapExcept f xs with
      | Except.error e => Except.error e
      | Except.ok ys => Except.ok (y :: ys)

/-- The row-set (`conll_annotation`) emitted for one frame: one row per token
of the sentence, in original sentence order. -/
def frame_rows (command_id : String) (tokens : List Token) (deps : List Dep)
    (fr : Frame) : Except ConvError (List (List String)) :=
  mapExcept (conll_row command_id deps fr.name fr.lus fr.frameElements) tokens

/-- Output directory constant `PATH_CONLL`. -/
def PATH_CONLL : String := "data/neural"

/-- Python's `sep.join(parts)`. -/
def str_join (sep : String) : List String → String
  | [] => ""
  | [x] => x
  | x :: y :: xs => x ++ sep ++ str_join sep (y :: xs)

/-- The text written to the mode-specific CoNLL file: for each row-set, each
row tab-joined and newline-terminated, then one blank line. -/
def conll_content (samples : List (List (List String))) : String :=
  samples.foldl
    (fun acc seq => (seq.foldl (fun a s => a ++ str_join "\t" s ++ "\n") acc) ++ "\n") ""

/-- The text written to the `fulltext.train` CoNLL file — the second, textually
identical write loop of `write_conll_samples`. -/
def conll_content_fulltext (samples : List (List (List String))) : String :=
  samples.foldl
    (fun acc seq => (seq.foldl (fun a s => a ++ str_join "\t" s ++ "\n") acc) ++ "\n") ""

/-- The text written to the `.sents` file: one line per row-set, the
space-joined FORM (index 1) fields of its rows.  (`getD 1 ""` is Python's
`w[1]`; the converter's rows always have 15 fields.) -/
def sents_content (samples : List (List (List String))) : String :=
  samples.foldl
    (fun acc seq => acc ++ str_join " " (seq.map (fun w => w.getD 1 "")) ++ "\n") ""

/-- `write_conll_samples` as the list of `(file location, file content)` pairs
it produces, in write order. -/
def write_conll_samples (samples : List (List (List String)))
    (dataset_name mode : String) : List (String × String) :=
  [(PATH_CONLL ++ "/" ++ dataset_name ++ "/" ++ dataset_name ++ "." ++ mode
      ++ ".syntaxnet.conll",
    conll_content samples),
   (PATH_CONLL ++ "/" ++ dataset_name ++ "/" ++ dataset_name
      ++ ".fulltext.train.syntaxnet.conll",
    conll_content_fulltext samples),
   (PATH_CONLL ++ "/" ++ dataset_name ++ "/" ++ dataset_name
      ++ ".fulltext.train.syntaxnet.conll.sents",
    sents_content samples)]

/-- Number of lines of a text (its newline characters; every emitted line is
newline-terminated). -/
def line_count (s : String) : Nat := s.data.count '\n'

/-! ## Helper lemmas -/

/-- A key absent from a table's key column looks up to `none`. -/
theorem table_lookup_eq_none {table : List (String × String)} {s : String}
    (h : s ∉ table.map Prod.fst) : table_lookup table s = none := by
  induction table with
  | nil => rfl
  | cons kv rest ih =>
    obtain ⟨k, v⟩ := kv
    simp only [List.map_cons, List.mem_cons] at h
    push_neg at h
    simp only [table_lookup, if_neg h.1]
    exact ih h.2

/-- Folding the dependency-map construction over edges none of which target
`tid` leaves the accumulator unchanged. -/
theorem deps_foldl_no_match (deps : List Dep) (tid : String) (acc : Option Dep)
    (h : ∀ d ∈ deps, d.to' ≠ tid) :
    deps.foldl (fun acc d => if d.to' = tid then some d else acc) acc = acc := by
  induction deps generalizing acc with
  | nil => rfl
  | cons d rest ih =>
    simp only [List.foldl_cons, if_neg (h d (List.mem_cons_self d rest))]
    exact ih acc fun d' hd' => h d' (List.mem_cons_of_mem d hd')

/-- Dict-assignment folding over entries none of which bind `tid` leaves the
accumulated value unchanged. -/
theorem foldl_pick_no_match (tid : String) (l : List (String × String)) (acc : String)
    (h : ∀ p ∈ l, p.1 ≠ tid) : l.foldl (pick tid) acc = acc := by
  induction l generalizing acc with
  | nil => rfl
  | cons p rest ih =>
    simp only [List.foldl_cons, pick, if_neg (h p (List.mem_cons_self p rest))]
    exact ih acc fun p' hp' => h p' (List.mem_cons_of_mem p hp')

/-- The value of `tid` after all dict assignments is the value of its last
assignment. -/
theorem foldl_pick_last (tid v : String) (l1 l2 : List (String × String))
    (h2 : ∀ p ∈ l2, p.1 ≠ tid) :
    (l1 ++ (tid, v) :: l2).foldl (pick tid) "O" = v := by
  rw [List.foldl_append, List.foldl_cons]
  have hstep : pick tid (l1.foldl (pick tid) "O") (tid, v) = v := by simp [pick]
  rw [hstep]
  exact foldl_pick_no_match tid l2 v h2

/-- `all_assignments` distributes over list append. -/
theorem all_assignments_append (l1 l2 : List FrameElement) :
    all_assignments (l1 ++ l2) = all_assignments l1 ++ all_assignments l2 := by
  induction l1 with
  | nil => rfl
  | cons fe rest ih => simp [all_assignments, ih, List.append_assoc]

/-- `enumerateFrom` distributes over append, shifting the counter. -/
theorem enumerateFrom_append (n : Nat) (a b : List α) :
    enumerateFrom n (a ++ b) = enumerateFrom n a ++ enumerateFrom (n + a.length) b := by
  induction a generalizing n with
  | nil => simp [enumerateFrom]
  | cons x xs ih =>
    have harith : n + 1 + xs.length = n + (xs.length + 1) := by omega
    simp [enumerateFrom, ih (n + 1), harith]

/-- The elements enumerated are the elements of the list. -/
theorem mem_enumerateFrom {p : Nat × α} {n : Nat} {l : List α}
    (h : p ∈ enumerateFrom n l) : p.2 ∈ l := by
  induction l generalizing n with
  | nil => cases h
  | cons x xs ih =>
    simp only [enumerateFrom, List.mem_cons] at h
    rcases h with h | h
    · subst h; exact List.mem_cons_self x xs
    · exact List.mem_cons_of_mem x (ih h)

/-- The key of an assignment from one frame element is a covered token id. -/
theorem mem_elem_assignments {p : String × String} {fe : FrameElement}
    (h : p ∈ elem_assignments fe) : p.1 ∈ fe.tokens := by
  simp only [elem_assignments, List.mem_map] at h
  obtain ⟨q, hq, hpq⟩ := h
  subst hpq
  exact mem_enumerateFrom hq

/-- The key of any assignment is a token id covered by one of the frame
elements. -/
theorem mem_all_assignments {p : String × String} {fes : List FrameElement}
    (h : p ∈ all_assignments fes) : ∃ fe ∈ fes, p.1 ∈ fe.tokens := by
  induction fes with
  | nil => cases h
  | cons fe rest ih =>
    simp only [all_assignments, List.mem_append] at h
    rcases h with h | h
    · exact ⟨fe, List.mem_cons_self fe rest, mem_elem_assignments h⟩
    · obtain ⟨fe', hfe', hp⟩ := ih h
      exact ⟨fe', List.mem_cons_of_mem fe hfe', hp⟩

/-- If a frame element decomposes its covered ids as `a ++ tid :: b`, `tid` does
not recur in `b`, and no later frame element covers `tid`, then the label of
`tid` is the IOB label for position `a.length` of that span. -/
theorem fe_by_t_id_split (pre post : List FrameElement) (fe : FrameElement)
    (a b : List String) (tid : String)
    (hsplit : fe.tokens = a ++ tid :: b)
    (hb : tid ∉ b)
    (hpost : ∀ fe' ∈ post, tid ∉ fe'.tokens) :
    fe_by_t_id (pre ++ fe :: post) tid =
      iob_label fe.tokens.length a.length (get_fe_framenet fe.type) := by
  unfold fe_by_t_id
  have hall : all_assignments (pre ++ fe :: post) =
      all_assignments pre ++ (elem_assignments fe ++ all_assignments post) := by
    rw [all_assignments_append]; rfl
  have henum : enumerateFrom 0 fe.tokens =
      enumerateFrom 0 a ++ (a.length, tid) :: enumerateFrom (a.length + 1) b := by
    rw [hsplit, enumerateFrom_append]
    simp [enumerateFrom]
  have helem : elem_assignments fe =
      (enumerateFrom 0 a).map
        (fun p => (p.2, iob_label fe.tokens.length p.1 (get_fe_framenet fe.type)))
      ++ (tid, iob_label fe.tokens.length a.length (get_fe_framenet fe.type))
        :: (enumerateFrom (a.length + 1) b).map
            (fun p => (p.2, iob_label fe.tokens.length p.1 (get_fe_framenet fe.type))) := by
    unfold elem_assignments
    rw [henum]
    simp [List.map_append]
  rw [hall, helem]
  have hre : all_assignments pre ++
      (((enumerateFrom 0 a).map
        (fun p => (p.2, iob_label fe.tokens.length p.1 (get_fe_framenet fe.type)))
      ++ (tid, iob_label fe.tokens.length a.length (get_fe_framenet fe.type))
        :: (enumerateFrom (a.length + 1) b).map
            (fun p => (p.2, iob_label fe.tokens.length p.1 (get_fe_framenet fe.type))))
      ++ all_assignments post) =
      (all_assignments pre ++ (enumerateFrom 0 a).map
        (fun p => (p.2, iob_label fe.tokens.length p.1 (get_fe_framenet fe.type))))
      ++ (tid, iob_label fe.tokens.length a.length (get_fe_framenet fe.type))
        :: ((enumerateFrom (a.length + 1) b).map
            (fun p => (p.2, iob_label fe.tokens.length p.1 (get_fe_framenet fe.type)))
           ++ all_assignments post) := by
    simp [List.append_assoc]
  rw [hre]
  apply foldl_pick_last
  intro p hp
  simp only [List.mem_append] at hp
  rcases hp with hp | hp
  · simp only [List.mem_map] at hp
    obtain ⟨q, hq, hpq⟩ := hp
    subst hpq
    exact fun hc => hb (hc ▸ mem_enumerateFrom hq)
  · obtain ⟨fe', hfe', hmem⟩ := mem_all_assignments hp
    exact fun hc => hpost fe' hfe' (hc ▸ hmem)

/-- Shape of a successfully constructed row: the dependency lookup succeeded,
the row is the 15-field list, and FILLPRED/PRED come from the lexical-unit
test. -/
theorem conll_row_ok_elim {cid : String} {deps : List Dep} {fname : String}
    {lus : List String} {fes : List FrameElement} {t : Token} {row : List String}
    (h : conll_row cid deps fname lus fes t = Except.ok row) :
    ∃ d fp, deps_by_t_id deps t.id = some d ∧
      row = [t.id, t.surface, t.lemma', t.lemma', t.pos, t.pos, cid, "_",
             d.from', d.from', d.type, d.type, fp.1, fp.2, fe_by_t_id fes t.id] ∧
      ((t.id ∉ lus ∧ fp = ("_", "_")) ∨
       (t.id ∈ lus ∧ ∃ pc, get_fn_pos_by_rules t.pos = Except.ok pc ∧
          fp = (get_lu_lemma t.lemma' ++ "." ++ pc, get_fn_frame_name fname))) := by
  unfold conll_row at h
  cases hd : deps_by_t_id deps t.id with
  | none => rw [hd] at h; simp at h
  | some d =>
    rw [hd] at h
    by_cases hl : t.id ∈ lus
    · rw [if_pos hl] at h
      cases hp : get_fn_pos_by_rules t.pos with
      | error e => rw [hp] at h; simp at h
      | ok pc =>
        rw [hp] at h
        simp only [Except.ok.injEq] at h
        exact ⟨d, (get_lu_lemma t.lemma' ++ "." ++ pc, get_fn_frame_name fname), rfl,
               h.symm, Or.inr ⟨hl, pc, rfl, rfl⟩⟩
    · rw [if_neg hl] at h
      simp only [Except.ok.injEq] at h
      exact ⟨d, ("_", "_"), rfl, h.symm, Or.inl ⟨hl, rfl⟩⟩

/-! ## Claims -/

/-- C1 (amended): the POS-category function maps `JJ` to `a`, the three noun
tags `NN`, `NNP`, `NNS` to `n`, and the verb-like tags (the six `VB*` forms
plus particle `RP` and existential `EX`) to `v`; any POS tag outside the
twelve recognized values raises the fatal exception naming the offending
tag. -/
theorem c1_pos_category_rules (p : String) :
    get_fn_pos_by_rules "JJ" = Except.ok "a" ∧
    (p ∈ ["NN", "NNP", "NNS"] → get_fn_pos_by_rules p = Except.ok "n") ∧
    (p ∈ ["VB", "VBD", "VBG", "VBN", "VBP", "VBZ", "RP", "EX"] →
      get_fn_pos_by_rules p = Except.ok "v") ∧
    (p ∉ recognized_pos_tags →
      get_fn_pos_by_rules p =
        Except.error (ConvError.posRuleError "Rule not defined for part-of-speech word" p)) := by
  refine ⟨rfl, ?_, ?_, ?_⟩
  · intro hp; fin_cases hp <;> rfl
  · intro hp; fin_cases hp <;> rfl
  · intro hp
    simp only [recognized_pos_tags, List.mem_cons, List.not_mem_nil, or_false] at hp
    push_neg at hp
    obtain ⟨h1, h2, h3, h4, h5, h6, h7, h8, h9, h10, h11, h12⟩ := hp
    simp [get_fn_pos_by_rules, h1, h2, h3, h4, h5, h6, h7, h8, h9, h10, h11, h12]

/-- C1 witness: scenario instances `NNP → n`, `VBZ → v`, and the unmapped tag
`FOO` raising the exception that names `FOO`. -/
theorem c1_pos_category_rules_witness :
    (("NNP" : String) ∈ ["NN", "NNP", "NNS"] ∧
      get_fn_pos_by_rules "NNP" = Except.ok "n") ∧
    (("VBZ" : String) ∈ ["VB", "VBD", "VBG", "VBN", "VBP", "VBZ", "RP", "EX"] ∧
      get_fn_pos_by_rules "VBZ" = Except.ok "v") ∧
    (("FOO" : String) ∉ recognized_pos_tags ∧
      get_fn_pos_by_rules "FOO" =
        Except.error (ConvError.posRuleError "Rule not defined for part-of-speech word" "FOO")) :=
  ⟨⟨by decide, (c1_pos_category_rules "NNP").2.1 (by decide)⟩,
   ⟨by decide, (c1_pos_category_rules "VBZ").2.2.1 (by decide)⟩,
   ⟨by decide, (c1_pos_category_rules "FOO").2.2.2 (by decide)⟩⟩

/-- C1 counterexample: the function recognizes twelve pairwise-distinct POS
tag values, not nine — all twelve concrete tags succeed, so the set of
recognized values does not have nine elements. -/
theorem c1_recognized_count_counterexample :
    recognized_pos_tags.Nodup ∧
    (recognized_pos_tags.all fun p => (get_fn_pos_by_rules p).isOk) = true ∧
    recognized_pos_tags.length = 12 ∧ ¬ recognized_pos_tags.length = 9 := by
  decide

/-- C2: a token whose id has no incoming dependency edge makes the row
construction fail with the `KeyError` lookup failure naming that id — no row
with a sentinel head (such as `0`) is emitted; the sentence root is not
special-cased. -/
theorem c2_missing_dep_edge_fails (cid : String) (deps : List Dep) (fname : String)
    (lus : List String) (fes : List FrameElement) (t : Token)
    (h : ∀ d ∈ deps, d.to' ≠ t.id) :
    conll_row cid deps fname lus fes t = Except.error (ConvError.keyError t.id) := by
  have hnone : deps_by_t_id deps t.id = none := deps_foldl_no_match deps t.id none h
  unfold conll_row
  rw [hnone]

/-- C2 witness: a root token `1` whose id no edge targets (the only edge
targets token `2`) fails the lookup. -/
theorem c2_missing_dep_edge_fails_witness :
    (∀ d ∈ [Dep.mk "2" "1" "dobj"], d.to' ≠ "1") ∧
    conll_row "doc1" [Dep.mk "2" "1" "dobj"] "Entering" ["1"] []
        (Token.mk "1" "go" "go" "VB") =
      Except.error (ConvError.keyError "1") :=
  ⟨by decide,
   c2_missing_dep_edge_fails "doc1" [Dep.mk "2" "1" "dobj"] "Entering" ["1"] []
     (Token.mk "1" "go" "go" "VB") (by decide)⟩

/-- C6: each of the three name-remapping functions returns any input absent
from its fixed table unchanged, and is consequently idempotent on such
already-canonical names. -/
theorem c6_remap_default_identity (s : String) :
    (s ∉ frame_name_mapping.map Prod.fst →
      get_fn_frame_name s = s ∧
      get_fn_frame_name (get_fn_frame_name s) = get_fn_frame_name s) ∧
    (s ∉ lu_lemma_mapping.map Prod.fst →
      get_lu_lemma s = s ∧ get_lu_lemma (get_lu_lemma s) = get_lu_lemma s) ∧
    (s ∉ fe_mapping.map Prod.fst →
      get_fe_framenet s = s ∧
      get_fe_framenet (get_fe_framenet s) = get_fe_framenet s) := by
  refine ⟨fun h => ?_, fun h => ?_, fun h => ?_⟩
  · have hid : get_fn_frame_name s = s := by
      unfold get_fn_frame_name
      rw [table_lookup_eq_none h]
    exact ⟨hid, by rw [hid]; exact hid⟩
  · have hid : get_lu_lemma s = s := by
      unfold get_lu_lemma
      rw [table_lookup_eq_none h]
    exact ⟨hid, by rw [hid]; exact hid⟩
  · have hid : get_fe_framenet s = s := by
      unfold get_fe_framenet
      rw [table_lookup_eq_none h]
    exact ⟨hid, by rw [hid]; exact hid⟩

/-- C6 witness: the canonical names `Giving` (frame), `move` (lemma) and
`Theme` (frame element) are absent from their tables and map to themselves. -/
theorem c6_remap_default_identity_witness :
    (("Giving" : String) ∉ frame_name_mapping.map Prod.fst ∧
      get_fn_frame_name "Giving" = "Giving") ∧
    (("move" : String) ∉ lu_lemma_mapping.map Prod.fst ∧
      get_lu_lemma "move" = "move") ∧
    (("Theme" : String) ∉ fe_mapping.map Prod.fst ∧
      get_fe_framenet "Theme" = "Theme") :=
  ⟨⟨by decide, ((c6_remap_default_identity "Giving").1 (by decide)).1⟩,
   ⟨by decide, ((c6_remap_default_identity "move").2.1 (by decide)).1⟩,
   ⟨by decide, ((c6_remap_default_identity "Theme").2.2 (by decide)).1⟩⟩

/-- C3: a token of a frame-element span gets the APRED label (field 14)
`S-<role>` when the span has exactly one token, `B-<role>` when it is the
first token of a longer span, and `I-<role>` otherwise, where `<role>` is the
remapped frame-element name — provided the token id does not recur later in
the span (`hb`) and no later span re-assigns it (`hpost`). -/
theorem c3_span_iob_labels (cid : String) (deps : List Dep) (fname : String)
    (lus : List String) (pre post : List FrameElement) (fe : FrameElement)
    (a b : List String) (t : Token) (row : List String)
    (hrow : conll_row cid deps fname lus (pre ++ fe :: post) t = Except.ok row)
    (hsplit : fe.tokens = a ++ t.id :: b)
    (hb : t.id ∉ b)
    (hpost : ∀ fe' ∈ post, t.id ∉ fe'.tokens) :
    row.get? 14 = some
      ((if fe.tokens.length = 1 then "S" else if a.length = 0 then "B" else "I")
        ++ "-" ++ get_fe_framenet fe.type) := by
  obtain ⟨d, fp, hd, hrow_eq, hfp⟩ := conll_row_ok_elim hrow
  subst hrow_eq
  have hlabel := fe_by_t_id_split pre post fe a b t.id hsplit hb hpost
  simp only [List.get?]
  rw [hlabel]
  unfold iob_label
  rfl

/-- C3 witness: span `["3"]` with role `Theme` labels token 3 `S-Theme`; span
`["5","6","7"]` with role `Goal` labels tokens 5, 6, 7 as `B-Goal`, `I-Goal`,
`I-Goal`. -/
theorem c3_span_iob_labels_witness :
    ((FrameElement.mk "Theme" ["3"]).tokens = [] ++ "3" :: [] ∧
      ["3", "ball", "ball", "ball", "NN", "NN", "d1", "_", "2", "2", "dobj", "dobj",
       "_", "_", "S-Theme"].get? 14 = some "S-Theme") ∧
    ((FrameElement.mk "Goal" ["5", "6", "7"]).tokens = [] ++ "5" :: ["6", "7"] ∧
      ["5", "to", "to", "to", "TO", "TO", "d1", "_", "4", "4", "det", "det",
       "_", "_", "B-Goal"].get? 14 = some "B-Goal") ∧
    ((FrameElement.mk "Goal" ["5", "6", "7"]).tokens = ["5"] ++ "6" :: ["7"] ∧
      ["6", "the", "the", "the", "DT", "DT", "d1", "_", "7", "7", "det", "det",
       "_", "_", "I-Goal"].get? 14 = some "I-Goal") ∧
    ((FrameElement.mk "Goal" ["5", "6", "7"]).tokens = ["5", "6"] ++ "7" :: [] ∧
      ["7", "box", "box", "box", "NN", "NN", "d1", "_", "4", "4", "pobj", "pobj",
       "_", "_", "I-Goal"].get? 14 = some "I-Goal") :=
  ⟨⟨rfl,
      c3_span_iob_labels "d1" [Dep.mk "3" "2" "dobj"] "Bringing" [] [] []
        (FrameElement.mk "Theme" ["3"]) [] [] (Token.mk "3" "ball" "ball" "NN")
        ["3", "ball", "ball", "ball", "NN", "NN", "d1", "_", "2", "2", "dobj", "dobj",
         "_", "_", "S-Theme"] rfl rfl (by decide) (by decide)⟩,
   ⟨rfl,
      c3_span_iob_labels "d1" [Dep.mk "5" "4" "det"] "Bringing" [] [] []
        (FrameElement.mk "Goal" ["5", "6", "7"]) [] ["6", "7"] (Token.mk "5" "to" "to" "TO")
        ["5", "to", "to", "to", "TO", "TO", "d1", "_", "4", "4", "det", "det",
         "_", "_", "B-Goal"] rfl rfl (by decide) (by decide)⟩,
   ⟨rfl,
      c3_span_iob_labels "d1" [Dep.mk "6" "7" "det"] "Bringing" [] [] []
        (FrameElement.mk "Goal" ["5", "6", "7"]) ["5"] ["7"] (Token.mk "6" "the" "the" "DT")
        ["6", "the", "the", "the", "DT", "DT", "d1", "_", "7", "7", "det", "det",
         "_", "_", "I-Goal"] rfl rfl (by decide) (by decide)⟩,
   ⟨rfl,
      c3_span_iob_labels "d1" [Dep.mk "7" "4" "pobj"] "Bringing" [] [] []
        (FrameElement.mk "Goal" ["5", "6", "7"]) ["5", "6"] [] (Token.mk "7" "box" "box" "NN")
        ["7", "box", "box", "box", "NN", "NN", "d1", "_", "4", "4", "pobj", "pobj",
         "_", "_", "I-Goal"] rfl rfl (by decide) (by decide)⟩⟩

/-- C4: a token covered by no frame-element span of the current frame gets
the APRED label (field 14) exactly `"O"`. -/
theorem c4_uncovered_token_label_O (cid : String) (deps : List Dep) (fname : String)
    (lus : List String) (fes : List FrameElement) (t : Token) (row : List String)
    (hrow : conll_row cid deps fname lus fes t = Except.ok row)
    (h : ∀ fe ∈ fes, t.id ∉ fe.tokens) :
    row.get? 14 = some "O" := by
  obtain ⟨d, fp, hd, hrow_eq, hfp⟩ := conll_row_ok_elim hrow
  subst hrow_eq
  have hO : fe_by_t_id fes t.id = "O" := by
    unfold fe_by_t_id
    apply foldl_pick_no_match
    intro p hp
    obtain ⟨fe, hfe, hmem⟩ := mem_all_assignments hp
    exact fun hc => h fe hfe (hc ▸ hmem)
  simp only [List.get?]
  rw [hO]

/-- C4 witness: token 2 is covered by no span of the frame (whose only span
covers tokens 5, 6, 7) and its label is `O`. -/
theorem c4_uncovered_token_label_O_witness :
    (∀ fe ∈ [FrameElement.mk "Goal" ["5", "6", "7"]], "2" ∉ fe.tokens) ∧
    ["2", "bring", "bring", "bring", "VB", "VB", "d1", "_", "0", "0", "root", "root",
     "_", "_", "O"].get? 14 = some "O" :=
  ⟨by decide,
   c4_uncovered_token_label_O "d1" [Dep.mk "2" "0" "root"] "Bringing" []
     [FrameElement.mk "Goal" ["5", "6", "7"]] (Token.mk "2" "bring" "bring" "VB")
     ["2", "bring", "bring", "bring", "VB", "VB", "d1", "_", "0", "0", "root", "root",
      "_", "_", "O"] rfl (by decide)⟩

/-- C5: in a successfully constructed row, a token whose id is not among the
frame's lexical-unit ids has FILLPRED (field 12) and PRED (field 13) both
`"_"`; a token whose id is among them has FILLPRED
`<mapped lemma>.<POS category>` and PRED the remapped frame name. -/
theorem c5_fillpred_pred (cid : String) (deps : List Dep) (fname : String)
    (lus : List String) (fes : List FrameElement) (t : Token) (row : List String)
    (hrow : conll_row cid deps fname lus fes t = Except.ok row) :
    (t.id ∉ lus → row.get? 12 = some "_" ∧ row.get? 13 = some "_") ∧
    (t.id ∈ lus → ∃ pc, get_fn_pos_by_rules t.pos = Except.ok pc ∧
      row.get? 12 = some (get_lu_lemma t.lemma' ++ "." ++ pc) ∧
      row.get? 13 = some (get_fn_frame_name fname)) := by
  obtain ⟨d, fp, hd, hrow_eq, hfp⟩ := conll_row_ok_elim hrow
  subst hrow_eq
  constructor
  · intro hnot
    rcases hfp with ⟨_, hfp⟩ | ⟨hin, _⟩
    · rw [hfp]
      exact ⟨rfl, rfl⟩
    · exact absurd hin hnot
  · intro hin
    rcases hfp with ⟨hnot, _⟩ | ⟨_, pc, hpc, hfp⟩
    · exact absurd hin hnot
    · exact ⟨pc, hpc, by rw [hfp]; rfl, by rw [hfp]; rfl⟩

/-- C5 witness: lexical-unit token 1 (`go`, `VB`, frame `Entering`) gets
FILLPRED `go.v` and PRED `Arriving`; non-lexical-unit token 2 gets `_`/`_`. -/
theorem c5_fillpred_pred_witness :
    (("1" : String) ∈ ["1"] ∧
      get_fn_pos_by_rules "VB" = Except.ok "v" ∧
      ["1", "go", "go", "go", "VB", "VB", "d2", "_", "0", "0", "root", "root",
       "go.v", "Arriving", "O"].get? 12 = some ("go.v") ∧
      ["1", "go", "go", "go", "VB", "VB", "d2", "_", "0", "0", "root", "root",
       "go.v", "Arriving", "O"].get? 13 = some "Arriving") ∧
    (("2" : String) ∉ ["1"] ∧
      ["2", "bring", "bring", "bring", "VB", "VB", "d1", "_", "0", "0", "root", "root",
       "_", "_", "O"].get? 12 = some "_" ∧
      ["2", "bring", "bring", "bring", "VB", "VB", "d1", "_", "0", "0", "root", "root",
       "_", "_", "O"].get? 13 = some "_") := by
  constructor
  · refine ⟨by decide, ?_⟩
    have h := (c5_fillpred_pred "d2" [Dep.mk "1" "0" "root"] "Entering" ["1"] []
      (Token.mk "1" "go" "go" "VB")
      ["1", "go", "go", "go", "VB", "VB", "d2", "_", "0", "0", "root", "root",
       "go.v", "Arriving", "O"] rfl).2 (by decide)
    obtain ⟨pc, hpc, h12, h13⟩ := h
    have h' : (Except.ok "v" : Except ConvError String) = Except.ok pc := hpc
    have hv : pc = "v" := (Except.ok.inj h').symm
    subst hv
    exact ⟨hpc, h12, h13⟩
  · refine ⟨by decide, ?_⟩
    exact (c5_fillpred_pred "d1" [Dep.mk "2" "0" "root"] "Bringing" ["1"] []
      (Token.mk "2" "bring" "bring" "VB")
      ["2", "bring", "bring", "bring", "VB", "VB", "d1", "_", "0", "0", "root", "root",
       "_", "_", "O"] rfl).1 (by decide)

/-- `mapExcept` preserves length on success. -/
theorem mapExcept_ok_length (f : α → Except ε β) (l : List α) (l' : List β)
    (h : mapExcept f l = Except.ok l') : l'.length = l.length := by
  induction l generalizing l' with
  | nil =>
    simp only [mapExcept, Except.ok.injEq] at h
    subst h
    rfl
  | cons x xs ih =>
    unfold mapExcept at h
    cases hx : f x with
    | error e => rw [hx] at h; simp at h
    | ok y =>
      rw [hx] at h
      cases hrest : mapExcept f xs with
      | error e => rw [hrest] at h; simp at h
      | ok ys =>
        rw [hrest] at h
        simp only [Except.ok.injEq] at h
        subst h
        simp [ih ys hrest]

/-- C7: a successfully emitted row-set for one frame has exactly one row per
token of the sentence. -/
theorem c7_row_count (cid : String) (tokens : List Token) (deps : List Dep)
    (fr : Frame) (rows : List (List String))
    (h : frame_rows cid tokens deps fr = Except.ok rows) :
    rows.length = tokens.length :=
  mapExcept_ok_length _ tokens rows h

/-- C7 witness: a two-token sentence yields a two-row row-set. -/
theorem c7_row_count_witness :
    frame_rows "c" [Token.mk "1" "go" "go" "VB", Token.mk "2" "home" "home" "NN"]
        [Dep.mk "1" "0" "root", Dep.mk "2" "1" "dobj"]
        (Frame.mk "Entering" ["1"] [FrameElement.mk "Goal" ["2"]]) =
      Except.ok
        [["1", "go", "go", "go", "VB", "VB", "c", "_", "0", "0", "root", "root",
          "go.v", "Arriving", "O"],
         ["2", "home", "home", "home", "NN", "NN", "c", "_", "1", "1", "dobj", "dobj",
          "_", "_", "S-Goal"]] ∧
    ([["1", "go", "go", "go", "VB", "VB", "c", "_", "0", "0", "root", "root",
       "go.v", "Arriving", "O"],
      ["2", "home", "home", "home", "NN", "NN", "c", "_", "1", "1", "dobj", "dobj",
       "_", "_", "S-Goal"]] : List (List String)).length =
      [Token.mk "1" "go" "go" "VB", Token.mk "2" "home" "home" "NN"].length :=
  ⟨rfl,
   c7_row_count "c" [Token.mk "1" "go" "go" "VB", Token.mk "2" "home" "home" "NN"]
     [Dep.mk "1" "0" "root", Dep.mk "2" "1" "dobj"]
     (Frame.mk "Entering" ["1"] [FrameElement.mk "Goal" ["2"]]) _ rfl⟩

/-- C10: in a successfully emitted row-set, the ID field (field 0) of each
row is the corresponding token's id string copied verbatim, in sentence
order — no 1-based progressive index is recomputed. -/
theorem c10_id_field_verbatim (cid : String) (tokens : List Token) (deps : List Dep)
    (fr : Frame) (rows : List (List String))
    (h : frame_rows cid tokens deps fr = Except.ok rows) :
    rows.map (fun r => r.get? 0) = tokens.map (fun t => some t.id) := by
  induction tokens generalizing rows with
  | nil =>
    unfold frame_rows mapExcept at h
    simp only [Except.ok.injEq] at h
    subst h
    rfl
  | cons t ts ih =>
    unfold frame_rows mapExcept at h
    cases hx : conll_row cid deps fr.name fr.lus fr.frameElements t with
    | error e => rw [hx] at h; simp at h
    | ok row =>
      rw [hx] at h
      cases hrest : mapExcept (conll_row cid deps fr.name fr.lus fr.frameElements) ts with
      | error e => rw [hrest] at h; simp at h
      | ok rs =>
        rw [hrest] at h
        simp only [Except.ok.injEq] at h
        subst h
        have hhead : row.get? 0 = some t.id := by
          obtain ⟨d, fp, _, hrow_eq, _⟩ := conll_row_ok_elim hx
          subst hrow_eq
          rfl
        have htail : rs.map (fun r => r.get? 0) = ts.map (fun t => some t.id) :=
          ih rs (by unfold frame_rows; exact hrest)
        simp only [List.map_cons]
        rw [hhead, htail]

/-- C10 witness: input ids `7` and `3` (neither 1-based nor consecutive) are
copied verbatim into the ID fields, in order. -/
theorem c10_id_field_verbatim_witness :
    frame_rows "c" [Token.mk "7" "go" "go" "VB", Token.mk "3" "home" "home" "NN"]
        [Dep.mk "7" "0" "root", Dep.mk "3" "7" "dobj"]
        (Frame.mk "Motion" [] []) =
      Except.ok
        [["7", "go", "go", "go", "VB", "VB", "c", "_", "0", "0", "root", "root",
          "_", "_", "O"],
         ["3", "home", "home", "home", "NN", "NN", "c", "_", "7", "7", "dobj", "dobj",
          "_", "_", "O"]] ∧
    ([["7", "go", "go", "go", "VB", "VB", "c", "_", "0", "0", "root", "root",
       "_", "_", "O"],
      ["3", "home", "home", "home", "NN", "NN", "c", "_", "7", "7", "dobj", "dobj",
       "_", "_", "O"]] : List (List String)).map (fun r => r.get? 0) =
      [Token.mk "7" "go" "go" "VB", Token.mk "3" "home" "home" "NN"].map
        (fun t => some t.id) :=
  ⟨rfl,
   c10_id_field_verbatim "c" [Token.mk "7" "go" "go" "VB", Token.mk "3" "home" "home" "NN"]
     [Dep.mk "7" "0" "root", Dep.mk "3" "7" "dobj"] (Frame.mk "Motion" [] []) _ rfl⟩

/-- C8: the writer's mode-specific file and its `fulltext.train` file receive
character-for-character identical content (the duplicate second write loop);
only the file names differ. -/
theorem c8_fulltext_duplicate (samples : List (List (List String)))
    (dataset_name mode : String) :
    (write_conll_samples samples dataset_name mode).map Prod.snd =
      [conll_content samples, conll_content samples, sents_content samples] ∧
    conll_content_fulltext = conll_content :=
  ⟨rfl, rfl⟩

/-- `line_count` is additive over string append. -/
theorem line_count_append (s t : String) :
    line_count (s ++ t) = line_count s + line_count t := by
  unfold line_count
  rw [String.data_append, List.count_append]

/-- A string without a newline character has zero lines. -/
theorem line_count_eq_zero {s : String} (h : ('\n') ∉ s.data) : line_count s = 0 :=
  List.count_eq_zero.mpr h

/-- A character of a join comes from the separator or from one of the
parts. -/
theorem mem_str_join {c : Char} {sep : String} {l : List String}
    (h : c ∈ (str_join sep l).data) : c ∈ sep.data ∨ ∃ s ∈ l, c ∈ s.data := by
  induction l with
  | nil => simp [str_join] at h
  | cons x xs ih =>
    cases xs with
    | nil =>
      right
      exact ⟨x, List.mem_singleton_self x, h⟩
    | cons y ys =>
      rw [show str_join sep (x :: y :: ys) = x ++ sep ++ str_join sep (y :: ys) from rfl] at h
      simp only [String.data_append, List.mem_append] at h
      rcases h with (h | h) | h
      · exact Or.inr ⟨x, List.mem_cons_self x (y :: ys), h⟩
      · exact Or.inl h
      · rcases ih h with h | ⟨s, hs, hc⟩
        · exact Or.inl h
        · exact Or.inr ⟨s, List.mem_cons_of_mem x hs, hc⟩

/-- Joining newline-free parts with a newline-free separator yields a
newline-free string. -/
theorem str_join_no_nl {sep : String} {l : List String} (hsep : ('\n') ∉ sep.data)
    (h : ∀ s ∈ l, ('\n') ∉ s.data) : ('\n') ∉ (str_join sep l).data := by
  intro hc
  rcases mem_str_join hc with hc | ⟨s, hs, hc⟩
  · exact hsep hc
  · exact h s hs hc

/-- Python's `w[1]` (here `getD 1 ""`) of a row of newline-free fields is
newline-free. -/
theorem getD_form_no_nl {w : List String} (h : ∀ f ∈ w, ('\n') ∉ f.data) :
    ('\n') ∉ (w.getD 1 "").data := by
  rcases w with _ | ⟨x, _ | ⟨y, ys⟩⟩
  · simp [List.getD]
  · simp [List.getD]
  · exact h y (List.mem_cons_of_mem x (List.mem_cons_self y ys))

/-- The inner CoNLL write loop adds one line per row. -/
theorem conll_seq_foldl_count (seq : List (List String)) (acc : String)
    (h : ∀ row ∈ seq, ∀ f ∈ row, ('\n') ∉ f.data) :
    line_count (seq.foldl (fun a s => a ++ str_join "\t" s ++ "\n") acc) =
      line_count acc + seq.length := by
  induction seq generalizing acc with
  | nil => simp
  | cons row rest ih =>
    simp only [List.foldl_cons]
    rw [ih _ fun r hr => h r (List.mem_cons_of_mem row hr)]
    rw [line_count_append, line_count_append]
    have h0 : line_count (str_join "\t" row) = 0 :=
      line_count_eq_zero
        (str_join_no_nl (by decide) (h row (List.mem_cons_self row rest)))
    have h1 : line_count "\n" = 1 := by decide
    rw [h0, h1]
    simp [List.length_cons]
    omega

/-- The outer CoNLL write loop adds `n + 1` lines per row-set of `n` rows. -/
theorem conll_foldl_count (samples : List (List (List String))) (acc : String)
    (h : ∀ seq ∈ samples, ∀ row ∈ seq, ∀ f ∈ row, ('\n') ∉ f.data) :
    line_count (samples.foldl
        (fun acc seq => (seq.foldl (fun a s => a ++ str_join "\t" s ++ "\n") acc) ++ "\n")
        acc) =
      line_count acc + (samples.map (fun seq => seq.length + 1)).sum := by
  induction samples generalizing acc with
  | nil => simp
  | cons seq rest ih =>
    simp only [List.foldl_cons]
    rw [ih _ fun s hs => h s (List.mem_cons_of_mem seq hs)]
    rw [line_count_append, conll_seq_foldl_count seq acc (h seq (List.mem_cons_self seq rest))]
    have h1 : line_count "\n" = 1 := by decide
    rw [h1]
    simp only [List.map_cons, List.sum_cons]
    omega

/-- The `.sents` write loop adds one line per row-set. -/
theorem sents_foldl_count (samples : List (List (List String))) (acc : String)
    (h : ∀ seq ∈ samples, ∀ row ∈ seq, ∀ f ∈ row, ('\n') ∉ f.data) :
    line_count (samples.foldl
        (fun acc seq => acc ++ str_join " " (seq.map (fun w => w.getD 1 "")) ++ "\n")
        acc) =
      line_count acc + samples.length := by
  induction samples generalizing acc with
  | nil => simp
  | cons seq rest ih =>
    simp only [List.foldl_cons]
    rw [ih _ fun s hs => h s (List.mem_cons_of_mem seq hs)]
    rw [line_count_append, line_count_append]
    have h0 : line_count (str_join " " (seq.map (fun w => w.getD 1 ""))) = 0 := by
      apply line_count_eq_zero
      apply str_join_no_nl (by decide)
      intro s hs
      simp only [List.mem_map] at hs
      obtain ⟨w, hw, hws⟩ := hs
      subst hws
      exact getD_form_no_nl fun f hf => h seq (List.mem_cons_self seq rest) w hw f hf
    have h1 : line_count "\n" = 1 := by decide
    rw [h0, h1]
    simp [List.length_cons]
    omega

/-- `String.join` peels off its head. -/
theorem string_join_cons (s : String) (l : List String) :
    String.join (s :: l) = s ++ String.join l := by
  apply String.ext
  simp [String.join_eq, String.data_append]

/-- Left fold of append equals append of a join (used to read the `.sents`
loop as one line per row-set). -/
theorem foldl_append_join (f : α → String) (l : List α) (acc : String) :
    l.foldl (fun a x => a ++ f x) acc = acc ++ String.join (l.map f) := by
  induction l generalizing acc with
  | nil => simp [String.join]
  | cons x xs ih =>
    simp only [List.foldl_cons, List.map_cons]
    rw [ih]
    rw [string_join_cons, String.append_assoc]

/-- C9: each row-set of `n` rows contributes `n` tab-joined lines plus one
blank line to the CoNLL file, and the `.sents` file has exactly one line per
row-set — the space-joined FORM fields (index 1) of its rows. -/
theorem c9_writer_line_structure (samples : List (List (List String)))
    (h : ∀ seq ∈ samples, ∀ row ∈ seq, ∀ f ∈ row, ('\n') ∉ f.data) :
    line_count (conll_content samples) =
      (samples.map (fun seq => seq.length + 1)).sum ∧
    line_count (sents_content samples) = samples.length ∧
    sents_content samples =
      String.join (samples.map
        (fun seq => str_join " " (seq.map (fun w => w.getD 1 "")) ++ "\n")) := by
  refine ⟨?_, ?_, ?_⟩
  · have h0 : line_count "" = 0 := rfl
    have := conll_foldl_count samples "" h
    simpa [conll_content, h0] using this
  · have h0 : line_count "" = 0 := rfl
    have := sents_foldl_count samples "" h
    simpa [sents_content, h0] using this
  · unfold sents_content
    have := foldl_append_join
      (fun seq => str_join " " (seq.map (fun w => w.getD 1 "")) ++ "\n") samples ""
    simp only [← String.append_assoc] at this
    rw [this, String.empty_append]

/-- C9 witness: one sentence of 4 (newline-free) rows yields a 5-line CoNLL
file and a 1-line `.sents` file. -/
theorem c9_writer_line_structure_witness :
    (∀ seq ∈ [[["1", "go"], ["2", "to"], ["3", "the"], ["4", "box"]]],
      ∀ row ∈ seq, ∀ f ∈ row, ('\n') ∉ f.data) ∧
    line_count (conll_content [[["1", "go"], ["2", "to"], ["3", "the"], ["4", "box"]]]) = 5 ∧
    line_count (sents_content [[["1", "go"], ["2", "to"], ["3", "the"], ["4", "box"]]]) = 1 :=
  ⟨by decide,
   (c9_writer_line_structure [[["1", "go"], ["2", "to"], ["3", "the"], ["4", "box"]]]
      (by decide)).1,
   (c9_writer_line_structure [[["1", "go"], ["2", "to"], ["3", "the"], ["4", "box"]]]
      (by decide)).2.1⟩
